import Mathlib

/-!
Shallow embedding of the yolo-discord trading-ledger core
(`yolo_discord/db.py`, `yolo_discord/service/yolo.py`,
`yolo_discord/service/security.py`, `yolo_discord/util.py`).

Modelling conventions:
* `Money` values are integer cents (`Int`), exactly as the SQL layer stores
  them (`amount_cents`, `security_price_cents`); `from_cents` is the identity
  on this representation.
* Wall-clock timestamps are abstracted to an integer time parameter `now`
  (units of days); `date('now', '-7 days')` becomes `now - 7`.
* SQLite tables are lists of rows; `INSERT` prepends a row and row ids are
  drawn from explicit counters (SQLite `lastrowid`).
* Python exceptions raised inside a transaction scope roll the transaction
  back, so a service call is modelled as `Except YoloError _ × DBState`,
  the state component being the committed state (pre-transaction state on
  error).  The Python `TypeError` raised by comparing `None < int` is the
  `typeError` variant.
* The Finnhub price oracle is a function `String → Option Int` (price in
  cents), and each call to `fetch_security_price` (one HTTP round trip) is
  counted explicitly.
-/

deriving instance DecidableEq for Except

namespace YoloDiscord

inductive TransactionType
  | CREDIT
  | DEBIT
  deriving DecidableEq

inductive OrderType
  | BUY
  | SELL
  deriving DecidableEq

/-- A row of the `transactions` table (dto.Transaction; the wall-clock
`created_at` column, unused by any ledger computation, is abstracted away). -/
structure Transaction where
  id : Nat
  user_id : String
  type : TransactionType
  amount_cents : Int
  comment : String
  deriving DecidableEq

structure TransactionInsert where
  user_id : String
  type : TransactionType
  amount_cents : Int
  comment : String
  deriving DecidableEq

/-- A row of the `orders` table (dto.Order). -/
structure Order where
  id : Nat
  user_id : String
  transaction_id : Nat
  type : OrderType
  security_name : String
  security_price_cents : Int
  quantity : Int
  deriving DecidableEq

structure OrderInsert where
  user_id : String
  transaction_id : Nat
  type : OrderType
  security_name : String
  security_price_cents : Int
  quantity : Int
  deriving DecidableEq

/-- A row of the `allowances` table; `created_at` is filled with the
current time at insertion. -/
structure Allowance where
  user_id : String
  created_at : Int
  deriving DecidableEq

/-- dto.OwnedSecurity: derived aggregate, not stored. -/
structure OwnedSecurity where
  name : String
  quantity : Int
  total_price_paid_cents : Int
  deriving DecidableEq

/-- dto.PortfolioEntry; `return_rate` is the computed percentage,
represented exactly in hundredths of a percent (the value of
`round(x, 2)` scaled by 100, which is an integer). -/
structure PortfolioEntry where
  security_name : String
  balance_cents : Int
  quantity : Int
  total_price_paid_cents : Int
  return_rate_hundredths : Int
  deriving DecidableEq

/-- dto.PortfolioSnapshot as returned to callers. -/
structure PortfolioSnapshot where
  created_at : Int
  entries : List PortfolioEntry
  deriving DecidableEq

/-- A row of the `portfolio_snapshots` table. -/
structure StoredSnapshot where
  user_id : String
  created_at : Int
  data : List PortfolioEntry
  deriving DecidableEq

/-- The whole SQLite database: one list of rows per table, plus the rowid
counters backing `cursor.lastrowid`. -/
structure DBState where
  users : List String
  transactions : List Transaction
  orders : List Order
  allowances : List Allowance
  snapshots : List StoredSnapshot
  next_tx_id : Nat
  next_order_id : Nat
  deriving DecidableEq

/-! ### Ledger store operations (TxImpl in db.py) -/

/-- `INSERT OR IGNORE INTO discord_users`; returns `rowcount > 0`. -/
def create_user (s : DBState) (u : String) : Bool × DBState :=
  if u ∈ s.users then (false, s)
  else (true, { s with users := u :: s.users })

/-- The SQL `CASE WHEN type = 'DEBIT' THEN -amount_cents ELSE amount_cents END`. -/
def txn_signed_cents (t : Transaction) : Int :=
  match t.type with
  | .DEBIT => -t.amount_cents
  | _ => t.amount_cents

/-- `TxImpl.get_user_balance`: `COALESCE(SUM(...), 0)` over the user's
transactions (the empty sum is 0, matching the COALESCE). -/
def get_user_balance (s : DBState) (u : String) : Int :=
  ((s.transactions.filter (fun t => t.user_id = u)).map txn_signed_cents).sum

/-- `TxImpl.create_transaction`: insert a row, return it with its rowid. -/
def create_transaction (s : DBState) (req : TransactionInsert) :
    Transaction × DBState :=
  let t : Transaction :=
    ⟨s.next_tx_id, req.user_id, req.type, req.amount_cents, req.comment⟩
  (t, { s with
          transactions := t :: s.transactions,
          next_tx_id := s.next_tx_id + 1 })

/-- `TxImpl.create_order`: insert a row, return it with its rowid. -/
def create_order (s : DBState) (req : OrderInsert) : Order × DBState :=
  let o : Order :=
    ⟨s.next_order_id, req.user_id, req.transaction_id, req.type,
     req.security_name, req.security_price_cents, req.quantity⟩
  (o, { s with
          orders := o :: s.orders,
          next_order_id := s.next_order_id + 1 })

/-- `quantity * (CASE WHEN type = 'BUY' THEN 1 ELSE -1 END)`. -/
def order_signed_quantity (o : Order) : Int :=
  match o.type with
  | .BUY => o.quantity
  | _ => -o.quantity

/-- `security_price_cents * quantity * (CASE WHEN type = 'BUY' THEN 1 ELSE -1 END)`. -/
def order_signed_paid (o : Order) : Int :=
  match o.type with
  | .BUY => o.security_price_cents * o.quantity
  | _ => -(o.security_price_cents * o.quantity)

/-- One group of the GROUP BY in `TxImpl.get_owned_securities`: the
aggregate over the rows of security `n`. -/
def owned_row (rows : List Order) (n : String) : OwnedSecurity :=
  let g := rows.filter (fun o => o.security_name = n)
  OwnedSecurity.mk n ((g.map order_signed_quantity).sum)
    ((g.map order_signed_paid).sum)

/-- `TxImpl.get_owned_securities`: GROUP BY security_name over the user's
orders, keeping only rows with positive net quantity. -/
def get_owned_securities (s : DBState) (u : String) : List OwnedSecurity :=
  let rows := s.orders.filter (fun o => o.user_id = u)
  (((rows.map (fun o => o.security_name)).dedup).map
    (owned_row rows)).filter (fun sec => 0 < sec.quantity)

/-- `TxImpl.create_allowance`: insert with `created_at` defaulted to now. -/
def create_allowance (s : DBState) (u : String) (now : Int) : DBState :=
  { s with allowances := ⟨u, now⟩ :: s.allowances }

/-- The join condition `a.user_id = du.user_id AND a.created_at > date('now', '-7 days')`. -/
def allowance_recent (now : Int) (u : String) (a : Allowance) : Bool :=
  a.user_id == u && decide (now - 7 < a.created_at)

/-- `TxImpl.get_eligible_users_for_allowance`: users that no recent
allowance row joins to (`WHERE a.user_id IS NULL`). -/
def get_eligible_users_for_allowance (s : DBState) (now : Int) : List String :=
  s.users.filter (fun u => !(s.allowances.any (allowance_recent now u)))

/-- `TxImpl.get_user_security_quantity`: the SQL `SUM` with no COALESCE, so
an empty row set yields NULL (`none`), not 0. -/
def get_user_security_quantity (s : DBState) (u name : String) : Option Int :=
  let rows := s.orders.filter (fun o => o.user_id = u ∧ o.security_name = name)
  if rows.isEmpty then none
  else some ((rows.map order_signed_quantity).sum)

/-- `TxImpl.create_portfolio_snapshot`. -/
def create_portfolio_snapshot (s : DBState) (u : String) (now : Int)
    (p : List PortfolioEntry) : DBState :=
  { s with snapshots := ⟨u, now, p⟩ :: s.snapshots }

/-- Insertion step of sorting by `created_at` (the SQL `ORDER BY created_at ASC`). -/
def insertSnap (x : PortfolioSnapshot) :
    List PortfolioSnapshot → List PortfolioSnapshot
  | [] => [x]
  | y :: ys =>
      if x.created_at ≤ y.created_at then x :: y :: ys
      else y :: insertSnap x ys

/-- Sort snapshots ascending by `created_at`. -/
def sortSnaps : List PortfolioSnapshot → List PortfolioSnapshot
  | [] => []
  | x :: xs => insertSnap x (sortSnaps xs)

/-- `TxImpl.get_user_portfolio_snapshots`: the user's rows,
`ORDER BY created_at ASC`. -/
def get_user_portfolio_snapshots (s : DBState) (u : String) :
    List PortfolioSnapshot :=
  sortSnaps
    ((s.snapshots.filter (fun r => r.user_id == u)).map
      (fun r => ⟨r.created_at, r.data⟩))

/-- `TxImpl.get_all_users`. -/
def get_all_users (s : DBState) : List String :=
  s.users

/-! ### Price oracle (service/security.py) -/

/-- The external Finnhub quote endpoint: a price in cents per ticker, or
`none` when the ticker is unknown (HTTP 404). -/
def Oracle : Type := String → Option Int

/-- The TTL price cache, abstracted to its key/value content. -/
def Cache : Type := List (String × Int)

/-- `SecurityServiceImpl.fetch_price_through_cache`: try the cache, fetch on
a miss, store a non-`None` result.  The middle component counts HTTP
fetches (`fetch_security_price` calls): 0 on a hit, 1 on a miss. -/
def fetch_price_through_cache (oracle : Oracle) (cache : Cache) (n : String) :
    Option Int × Nat × Cache :=
  match cache.lookup n with
  | some p => (some p, 0, cache)
  | none =>
      match oracle n with
      | some p => (some p, 1, (n, p) :: cache)
      | none => (none, 1, cache)

/-- `SecurityServiceImpl.get_security_prices`: resolve the names one at a
time through the cache, returning `none` as soon as any price is missing.
The middle component is the total number of HTTP fetches performed. -/
def get_security_prices (oracle : Oracle) :
    Cache → List String → Option (List (String × Int)) × Nat × Cache
  | cache, [] => (some [], 0, cache)
  | cache, n :: rest =>
      match fetch_price_through_cache oracle cache n with
      | (none, k, c1) => (none, k, c1)
      | (some p, k, c1) =>
          match get_security_prices oracle c1 rest with
          | (none, k2, c2) => (none, k + k2, c2)
          | (some m, k2, c2) => (some ((n, p) :: m), k + k2, c2)

/-! ### util.py -/

/-- Round-to-nearest with ties to even of the exact rational `a / b`
(for `b > 0`) to the nearest integer, computed in integer arithmetic:
`f` is the floor of `a / b` and `r` its remainder. -/
def roundHalfEvenInt (a b : Int) : Int :=
  let f := a.fdiv b
  let r := a - f * b
  if 2 * r < b then f
  else if b < 2 * r then f + 1
  else if f % 2 = 0 then f else f + 1

/-- Fuel-based binary logarithm (the fuel makes it structurally
recursive, so the kernel can evaluate it on literals). -/
def log2Aux : Nat → Nat → Nat
  | 0, _ => 0
  | fuel + 1, n => if 2 ≤ n then log2Aux fuel (n / 2) + 1 else 0

/-- `⌊log2 n⌋` for `n ≥ 1` (and 0 for `n = 0`). -/
def natLog2 (n : Nat) : Nat :=
  log2Aux n n

/-- Decides `n / d < 2 ^ e` in integer arithmetic. -/
def ratLtPow2 (n d : Nat) (e : Int) : Bool :=
  if 0 ≤ e then decide (n < d * 2 ^ e.toNat)
  else decide (n * 2 ^ (-e).toNat < d)

/-- IEEE-754 binary64 correctly-rounded division of two integers
(CPython's `int / int` true division): the result is a dyadic rational
`m · 2 ^ e` with a 53-bit signed mantissa, the double nearest to `a / b`
with ties to even.  Requires `b > 0`; overflow and subnormals are outside
the modelled range of return-rate inputs. -/
def float_div (a b : Int) : Int × Int :=
  if a = 0 then (0, 0)
  else
    let n := a.natAbs
    let d := b.natAbs
    let E0 : Int := (natLog2 n : Int) - (natLog2 d : Int)
    let E : Int := if ratLtPow2 n d E0 then E0 - 1 else E0
    let e : Int := E - 52
    let m : Int :=
      if 0 ≤ e then roundHalfEvenInt a (b * ((2 ^ e.toNat : Nat) : Int))
      else roundHalfEvenInt (a * ((2 ^ (-e).toNat : Nat) : Int)) b
    (m, e)

/-- Round an exact dyadic value `m · 2 ^ e` to the nearest binary64
double (53-bit mantissa, ties to even): the rounding a double
multiplication performs on its exact product. -/
def float_normalize (m e : Int) : Int × Int :=
  if m = 0 then (0, 0)
  else
    let bits := natLog2 m.natAbs
    if bits ≤ 52 then (m, e)
    else (roundHalfEvenInt m ((2 ^ (bits - 52) : Nat) : Int),
          e + ((bits - 52 : Nat) : Int))

/-- CPython's `round(x, 2)` on the double `x = m · 2 ^ e`: the decimal
rounding is correctly rounded (David Gay dtoa), i.e. half-to-even on the
exact binary value of the double.  The result is reported in hundredths
(the integer `k` with `round(x, 2) = k / 100`). -/
def py_round_double_2 (m e : Int) : Int :=
  if 0 ≤ e then m * 100 * ((2 ^ e.toNat : Nat) : Int)
  else roundHalfEvenInt (m * 100) ((2 ^ (-e).toNat : Nat) : Int)

/-- `util.calculate_return_rate` on the minor-unit amounts
(`get_amount_in_sub_unit` is the identity in this model):
`rate = (current - paid) / paid; return round(rate * 100, 2)`,
computed as CPython does — binary64 true division, binary64
multiplication by 100, then `round(·, 2)` — and reported exactly in
hundredths of a percent. -/
def calculate_return_rate (paid_cents current_cents : Int) : Int :=
  if paid_cents ≤ 0 then 0
  else
    let rate := float_div (current_cents - paid_cents) paid_cents
    let x := float_normalize (rate.1 * 100) rate.2
    py_round_double_2 x.1 x.2

/-! ### Accounting engine (service/yolo.py) -/

/-- config.ApplicationConfiguration, amounts in cents. -/
structure Config where
  starting_balance_cents : Int
  weekly_allowance_cents : Int
  deriving DecidableEq

structure CreateOrderRequest where
  user_id : String
  security_name : String
  quantity : Int
  deriving DecidableEq

/-- The typed failures raised by YoloServiceImpl.  `typeError` is the Python
`TypeError` raised when the NULL net quantity (`None`) is compared with an
`int`; `priceUnavailable` is the generic exception raised when the oracle
has no price. -/
inductive YoloError
  | notEnoughMoney (available_cents required_cents : Int)
  | notEnoughQuantity (available : Int)
  | priceUnavailable
  | typeError
  deriving DecidableEq

/-- `YoloServiceImpl.create_user` (onboarding): on a newly inserted user,
record an allowance grant and the starting-balance CREDIT in the same
transaction. -/
def svc_create_user (cfg : Config) (now : Int) (s : DBState) (u : String) :
    DBState :=
  let r := create_user s u
  if r.1 then
    let s2 := create_allowance r.2 u now
    (create_transaction s2
      ⟨u, .CREDIT, cfg.starting_balance_cents, "Initial credit"⟩).2
  else r.2

def buy_memo (req : CreateOrderRequest) : String :=
  "Buy for " ++ toString req.quantity ++ " of $" ++ req.security_name

def sell_memo (req : CreateOrderRequest) : String :=
  "Sell for " ++ toString req.quantity ++ " of $" ++ req.security_name

/-- `YoloServiceImpl.buy`.  On an error the transaction rolls back, so the
returned state is the state before the transaction scope (after the
onboarding call, which commits separately). -/
def buy (cfg : Config) (oracle : Oracle) (now : Int) (s : DBState)
    (req : CreateOrderRequest) : Except YoloError Order × DBState :=
  let s1 := svc_create_user cfg now s req.user_id
  let balance := get_user_balance s1 req.user_id
  match oracle req.security_name with
  | none => (.error .priceUnavailable, s1)
  | some price =>
      let debit_amount := price * req.quantity
      if debit_amount > balance then
        (.error (.notEnoughMoney balance debit_amount), s1)
      else
        let r2 := create_transaction s1
          ⟨req.user_id, .DEBIT, debit_amount, buy_memo req⟩
        let r3 := create_order r2.2
          ⟨req.user_id, r2.1.id, .BUY, req.security_name, price, req.quantity⟩
        (.ok r3.1, r3.2)

/-- `YoloServiceImpl.sell`.  The held-quantity read can be NULL (`none`),
in which case Python's `quantity < request.quantity` raises `TypeError`. -/
def sell (cfg : Config) (oracle : Oracle) (now : Int) (s : DBState)
    (req : CreateOrderRequest) : Except YoloError Order × DBState :=
  let s1 := svc_create_user cfg now s req.user_id
  match get_user_security_quantity s1 req.user_id req.security_name with
  | none => (.error .typeError, s1)
  | some quantity =>
      if quantity < req.quantity then
        (.error (.notEnoughQuantity quantity), s1)
      else
        match oracle req.security_name with
        | none => (.error .priceUnavailable, s1)
        | some price =>
            let credit_amount := price * req.quantity
            let r2 := create_transaction s1
              ⟨req.user_id, .CREDIT, credit_amount, sell_memo req⟩
            let r3 := create_order r2.2
              ⟨req.user_id, r2.1.id, .SELL, req.security_name, price,
               req.quantity⟩
            (.ok r3.1, r3.2)

/-- `YoloServiceImpl.send_gift`: onboard both parties, then within one
transaction check the sender's balance and record the paired DEBIT/CREDIT. -/
def send_gift (cfg : Config) (now : Int) (s : DBState)
    (from_user to_user : String) (amount : Int) :
    Except YoloError Unit × DBState :=
  let s1 := svc_create_user cfg now s from_user
  let s2 := svc_create_user cfg now s1 to_user
  let from_user_balance := get_user_balance s2 from_user
  if from_user_balance < amount then
    (.error (.notEnoughMoney from_user_balance amount), s2)
  else
    let s3 := (create_transaction s2
      ⟨from_user, .DEBIT, amount, "Gift to @" ++ to_user⟩).2
    let s4 := (create_transaction s3
      ⟨to_user, .CREDIT, amount, "Gift from @" ++ from_user⟩).2
    (.ok (), s4)

/-- One entry of the portfolio list comprehension in
`YoloServiceImpl.get_portfolio`. -/
def mk_portfolio_entry (prices : List (String × Int)) (sec : OwnedSecurity) :
    PortfolioEntry :=
  let price := (prices.lookup sec.name).getD 0
  ⟨sec.name, sec.quantity * price, sec.quantity, sec.total_price_paid_cents,
   calculate_return_rate sec.total_price_paid_cents (sec.quantity * price)⟩

/-- The body of `YoloServiceImpl.get_portfolio` after onboarding: read
owned securities, resolve all their names through
`get_security_prices`, build the entries.  The `Nat` component counts HTTP
fetches, the `Cache` component is the updated price cache. -/
def get_portfolio_core (oracle : Oracle) (cache : Cache) (s : DBState)
    (u : String) : Except YoloError (List PortfolioEntry) × Nat × Cache :=
  let owned := get_owned_securities s u
  match get_security_prices oracle cache (owned.map (fun sec => sec.name)) with
  | (none, k, c) => (.error .priceUnavailable, k, c)
  | (some prices, k, c) => (.ok (owned.map (mk_portfolio_entry prices)), k, c)

/-- `YoloServiceImpl.get_portfolio` with `create_user=True`. -/
def get_portfolio (cfg : Config) (oracle : Oracle) (now : Int) (cache : Cache)
    (s : DBState) (u : String) :
    Except YoloError (List PortfolioEntry) × Nat × Cache × DBState :=
  let s1 := svc_create_user cfg now s u
  let r := get_portfolio_core oracle cache s1 u
  (r.1, r.2.1, r.2.2, s1)

/-- The loop body of `YoloServiceImpl.update_allowances`: grant one
allowance and the weekly CREDIT. -/
def grant_allowance (cfg : Config) (now : Int) (s : DBState) (u : String) :
    DBState :=
  let s1 := create_allowance s u now
  (create_transaction s1
    ⟨u, .CREDIT, cfg.weekly_allowance_cents, "Weekly allowance"⟩).2

/-- `YoloServiceImpl.update_allowances`: grant every eligible user, all in
one transaction. -/
def update_allowances (cfg : Config) (now : Int) (s : DBState) : DBState :=
  (get_eligible_users_for_allowance s now).foldl (grant_allowance cfg now) s

/-- `YoloServiceImpl.get_portfolio_snapshots`: compute the current
portfolio, read the stored snapshots, append the current portfolio as a
synthetic entry timestamped now.  Nothing is written to the snapshot
store. -/
def get_portfolio_snapshots (cfg : Config) (oracle : Oracle) (now : Int)
    (cache : Cache) (s : DBState) (u : String) :
    Except YoloError (List PortfolioSnapshot) × DBState :=
  let r := get_portfolio cfg oracle now cache s u
  match r.1 with
  | .error e => (.error e, r.2.2.2)
  | .ok latest_portfolio =>
      (.ok (get_user_portfolio_snapshots r.2.2.2 u ++
        [⟨now, latest_portfolio⟩]), r.2.2.2)

/-! ### Concrete states used by witnesses and counterexamples -/

/-- An empty database. -/
def fresh_state : DBState := ⟨[], [], [], [], [], 0, 0⟩

/-- A configuration: $1000.00 starting balance, $100.00 weekly allowance. -/
def cfgA : Config := ⟨100000, 10000⟩

/-- One onboarded user `a` holding $100.00. -/
def stateA : DBState :=
  ⟨["a"], [⟨0, "a", .CREDIT, 10000, "Initial credit"⟩], [], [⟨"a", 0⟩], [], 1, 0⟩

/-- Users `a` (balance $100.00) and `b` (balance $0.00). -/
def stateAB : DBState :=
  ⟨["b", "a"], [⟨0, "a", .CREDIT, 10000, "Initial credit"⟩], [],
   [⟨"a", 0⟩, ⟨"b", 0⟩], [], 1, 0⟩

/-- User `a` holds one share each of two securities `AAA` and `BBB`. -/
def stateTwoSec : DBState :=
  ⟨["a"],
   [⟨0, "a", .DEBIT, 100, "Buy for 1 of $AAA"⟩,
    ⟨1, "a", .DEBIT, 200, "Buy for 1 of $BBB"⟩],
   [⟨0, "a", 0, .BUY, "AAA", 100, 1⟩, ⟨1, "a", 1, .BUY, "BBB", 200, 1⟩],
   [⟨"a", 0⟩], [], 2, 2⟩

/-- An oracle that knows `AAA` and `BBB` only. -/
def oracleAB : Oracle :=
  fun n => if n = "AAA" then some 100 else if n = "BBB" then some 200 else none

/-- User `u` exists and received an allowance at time 0. -/
def stateU : DBState := ⟨["u"], [], [], [⟨"u", 0⟩], [], 0, 0⟩

/-- User `a` with one stored (empty) portfolio snapshot taken at time 3. -/
def stateSnap : DBState := ⟨["a"], [], [], [⟨"a", 0⟩], [⟨"a", 3, []⟩], 0, 0⟩

/-! ### Spec-side definitions (each written from the spec's words, for
comparison against the source embedding above) -/

/-- The claim's description of the balance: the signed sum of the user's
transactions, CREDIT counted positive and DEBIT counted negative. -/
def signed_sum_spec (ts : List Transaction) : Int :=
  (ts.map (fun t =>
    match t.type with
    | .CREDIT => t.amount_cents
    | .DEBIT => -t.amount_cents)).sum

/-- Spec-side banker's rounding of a rational to the nearest integer,
written with the mathematical floor. -/
def roundHalfEvenQ (q : ℚ) : Int :=
  if q - ⌊q⌋ < 1 / 2 then ⌊q⌋
  else if 1 / 2 < q - ⌊q⌋ then ⌊q⌋ + 1
  else if ⌊q⌋ % 2 = 0 then ⌊q⌋ else ⌊q⌋ + 1

/-- Spec-side return rate, following the spec's words:
`0 if total_price_paid ≤ 0, otherwise round(100 × (current − paid) / paid, 2)`,
where `round(x, 2)` rounds to two decimal places (ties to even, as Python's
`round` does). -/
def return_rate_spec (paid current : Int) : ℚ :=
  if paid ≤ 0 then 0
  else (roundHalfEvenQ (100 * ((current : ℚ) - (paid : ℚ)) / (paid : ℚ) * 100) : ℚ) / 100

/-! ### Shared helper lemmas -/

theorem svc_create_user_of_mem (cfg : Config) (now : Int) (s : DBState)
    (u : String) (h : u ∈ s.users) : svc_create_user cfg now s u = s := by
  simp [svc_create_user, create_user, h]

theorem svc_create_user_orders (cfg : Config) (now : Int) (s : DBState)
    (u : String) : (svc_create_user cfg now s u).orders = s.orders := by
  unfold svc_create_user create_user create_allowance create_transaction
  split <;> simp_all

theorem svc_create_user_snapshots (cfg : Config) (now : Int) (s : DBState)
    (u : String) : (svc_create_user cfg now s u).snapshots = s.snapshots := by
  unfold svc_create_user create_user create_allowance create_transaction
  split <;> simp_all

/-- Prepending a transaction row shifts a user's balance by the signed
amount when the row belongs to that user. -/
theorem get_user_balance_create_transaction (s : DBState)
    (req : TransactionInsert) (u : String) :
    get_user_balance (create_transaction s req).2 u =
      (if req.user_id = u then
        txn_signed_cents ⟨s.next_tx_id, req.user_id, req.type,
          req.amount_cents, req.comment⟩ else 0) + get_user_balance s u := by
  unfold get_user_balance create_transaction
  by_cases h : req.user_id = u <;> simp [List.filter_cons, h]

/-! ### Claim C1 -/

/-- Claim C1: for every user and every sequence of recorded transactions,
`get_user_balance` returns exactly the signed sum of that user's
transaction amounts in integer cents (CREDIT positive, DEBIT negative),
and returns zero when the user has no transaction rows. -/
theorem C1_balance_is_signed_sum (s : DBState) (u : String) :
    get_user_balance s u =
      signed_sum_spec (s.transactions.filter (fun t => t.user_id = u)) ∧
    (s.transactions.filter (fun t => t.user_id = u) = [] →
      get_user_balance s u = 0) := by
  constructor
  · unfold get_user_balance signed_sum_spec
    congr 1
    apply List.map_congr_left
    intro t _
    rcases t with ⟨_, _, ty, _, _⟩
    cases ty <;> rfl
  · intro h
    simp [get_user_balance, h]

/-- Witness for C1 at a concrete state: a user with one $100.00 CREDIT has
balance 10000 cents, and a user with no rows has balance 0. -/
theorem C1_balance_is_signed_sum_witness :
    get_user_balance stateA "a" =
      signed_sum_spec (stateA.transactions.filter (fun t => t.user_id = "a")) ∧
    get_user_balance stateA "nobody" = 0 :=
  ⟨(C1_balance_is_signed_sum stateA "a").1,
   (C1_balance_is_signed_sum stateA "nobody").2 (by decide)⟩

/-! ### Claim C7 -/

theorem floor_intCast_div_intCast (a b : Int) (hb : 0 < b) :
    ⌊(a : ℚ) / (b : ℚ)⌋ = a / b := by
  lift b to ℕ using hb.le
  exact_mod_cast Rat.floor_intCast_div_natCast a b

theorem fdiv_eq_floor (a b : Int) (hb : 0 < b) :
    a.fdiv b = ⌊(a : ℚ) / (b : ℚ)⌋ := by
  rw [floor_intCast_div_intCast a b hb, Int.fdiv_eq_ediv _ hb.le]

/-- The integer-arithmetic rounding agrees with the mathematical
half-to-even rounding of the exact quotient. -/
theorem roundHalfEvenInt_eq (a b : Int) (hb : 0 < b) :
    roundHalfEvenInt a b = roundHalfEvenQ ((a : ℚ) / b) := by
  have hbQ : (0 : ℚ) < (b : ℚ) := by exact_mod_cast hb
  have hf := fdiv_eq_floor a b hb
  set f := a.fdiv b with hfdef
  set r := a - f * b with hrdef
  have hfrac : (a : ℚ) / b - (f : ℚ) = (r : ℚ) / b := by
    rw [hrdef]
    push_cast
    field_simp
    ring
  have h1 : ((a : ℚ) / b - (f : ℚ) < 1 / 2) ↔ (2 * r < b) := by
    rw [hfrac, div_lt_div_iff₀ hbQ (by norm_num : (0 : ℚ) < 2), one_mul,
      mul_comm]
    exact_mod_cast Iff.rfl
  have h2 : ((1 : ℚ) / 2 < (a : ℚ) / b - (f : ℚ)) ↔ (b < 2 * r) := by
    rw [hfrac, div_lt_div_iff₀ (by norm_num : (0 : ℚ) < 2) hbQ, one_mul,
      mul_comm (r : ℚ) 2]
    exact_mod_cast Iff.rfl
  unfold roundHalfEvenInt roundHalfEvenQ
  rw [← hf]
  simp only [← hfdef, ← hrdef, h1, h2]

/-- A rational that is already an integer rounds to itself. -/
theorem roundHalfEvenQ_intCast (k : Int) : roundHalfEvenQ (k : ℚ) = k := by
  simp [roundHalfEvenQ]

/-- The modelled `round(x, 2)` of a double `x = m · 2 ^ e` is the
mathematical half-to-even rounding of the exact value of that double to
hundredths. -/
theorem py_round_double_2_eq (m e : Int) :
    py_round_double_2 m e = roundHalfEvenQ ((m : ℚ) * (2 : ℚ) ^ e * 100) := by
  by_cases he : 0 ≤ e
  · have h2 : (2 : ℚ) ^ e = ((2 : ℚ) ^ e.toNat) := by
      rw [← zpow_natCast, Int.toNat_of_nonneg he]
    have harg : (m : ℚ) * (2 : ℚ) ^ e * 100 =
        ((m * 100 * ((2 ^ e.toNat : Nat) : Int) : Int) : ℚ) := by
      rw [h2]
      push_cast
      ring
    rw [py_round_double_2, if_pos he, harg, roundHalfEvenQ_intCast]
  · have hpos : (0 : Int) < ((2 ^ (-e).toNat : Nat) : Int) := by positivity
    have h2 : (2 : ℚ) ^ e = (((2 : ℚ) ^ (-e).toNat))⁻¹ := by
      have hn : (((-e).toNat : Nat) : Int) = -e :=
        Int.toNat_of_nonneg (by omega)
      rw [← zpow_natCast (2 : ℚ) (-e).toNat, hn, ← zpow_neg, neg_neg]
    have harg : ((m * 100 : Int) : ℚ) / (((2 ^ (-e).toNat : Nat) : Int) : ℚ) =
        (m : ℚ) * (2 : ℚ) ^ e * 100 := by
      rw [h2]
      push_cast
      field_simp
    rw [py_round_double_2, if_neg he, roundHalfEvenInt_eq _ _ hpos, harg]

/-- Counterexample to C7 as stated: the source computes the return rate
in binary floating point (`(current - paid) / paid` is float true
division and `round` acts on the float), and at paid = 4000 cents,
current = 4107 cents the exact formula value 2.675 sits at a rounding
boundary that the float pipeline resolves downward: the code returns
2.67 while `round(100 × (current − paid) / paid, 2)` is 2.68.  So the
computed return rate does not always equal the exact rounded formula. -/
theorem C7_float_rounding_counterexample :
    calculate_return_rate 4000 4107 = 267 ∧
    return_rate_spec 4000 4107 = 268 / 100 ∧
    ((calculate_return_rate 4000 4107 : ℚ) / 100 ≠
      return_rate_spec 4000 4107) := by
  refine ⟨by decide, by norm_num [return_rate_spec, roundHalfEvenQ], ?_⟩
  rw [show calculate_return_rate 4000 4107 = (267 : Int) from by decide,
    show return_rate_spec 4000 4107 = 268 / 100 from by
      norm_num [return_rate_spec, roundHalfEvenQ]]
  norm_num

/-- Claim C7, amended: the computed return rate is 0 when
total_price_paid ≤ 0, and otherwise is the binary-floating-point
evaluation of `round(((current − paid) / paid) × 100, 2)` — correctly
rounded division and multiplication by 100 on doubles, then a decimal
rounding whose value equals the mathematical half-even rounding of the
double's exact value to hundredths.  That float pipeline can differ in
the last hundredth from the exact `round(100 × (current − paid) / paid, 2)`
at boundary inputs; on the spec's example the two agree: a holding with
total_price_paid $500.00 and current total $600.00 yields balance
$600.00 (60000 cents) and return rate +20.00% (2000 hundredths). -/
theorem C7_return_rate_float_pipeline :
    (∀ paid current : Int, paid ≤ 0 →
      calculate_return_rate paid current = 0) ∧
    (∀ m e : Int, py_round_double_2 m e =
      roundHalfEvenQ ((m : ℚ) * (2 : ℚ) ^ e * 100)) ∧
    calculate_return_rate 50000 60000 = 2000 ∧
    (calculate_return_rate 50000 60000 : ℚ) / 100 =
      return_rate_spec 50000 60000 ∧
    mk_portfolio_entry [("ACME", 6000)] ⟨"ACME", 10, 50000⟩ =
      ⟨"ACME", 60000, 10, 50000, 2000⟩ := by
  refine ⟨fun p c h => by simp [calculate_return_rate, h],
    py_round_double_2_eq, by decide, ?_, by decide⟩
  rw [show calculate_return_rate 50000 60000 = (2000 : Int) from by decide,
    show return_rate_spec 50000 60000 = 20 from by
      norm_num [return_rate_spec, roundHalfEvenQ]]
  norm_num

/-- Witness for C7 (amended) at concrete inputs: a non-positive cost
basis yields 0, and a concrete negative-exponent rounding instance of
the final-step characterization. -/
theorem C7_return_rate_float_pipeline_witness :
    calculate_return_rate (-5) 33 = 0 ∧
    py_round_double_2 5 (-1) = roundHalfEvenQ ((5 : ℚ) * (2 : ℚ) ^ (-1 : Int) * 100) :=
  ⟨(C7_return_rate_float_pipeline).1 (-5) 33 (by decide),
   (C7_return_rate_float_pipeline).2.1 5 (-1)⟩

/-! ### Claim C2 -/

/-- Claim C2: with the oracle price available and a positive quantity,
`buy` fails with `InsufficientFunds{available, required}` and writes
nothing when `cost = price × quantity` exceeds the balance; otherwise it
records exactly one DEBIT transaction for the cost and one BUY order
linked to that transaction's id, carrying the executed unit price and the
requested quantity, and returns that order. -/
theorem C2_buy_behaviour (cfg : Config) (oracle : Oracle) (now : Int)
    (s : DBState) (req : CreateOrderRequest) (price : Int)
    (hp : oracle req.security_name = some price) (hq : 0 < req.quantity) :
    let s1 := svc_create_user cfg now s req.user_id
    let balance := get_user_balance s1 req.user_id
    let cost := price * req.quantity
    (balance < cost →
      buy cfg oracle now s req =
        (.error (.notEnoughMoney balance cost), s1)) ∧
    (cost ≤ balance →
      buy cfg oracle now s req =
        (.ok ⟨s1.next_order_id, req.user_id, s1.next_tx_id, .BUY,
          req.security_name, price, req.quantity⟩,
         { s1 with
            transactions :=
              ⟨s1.next_tx_id, req.user_id, .DEBIT, cost, buy_memo req⟩ ::
                s1.transactions,
            orders :=
              ⟨s1.next_order_id, req.user_id, s1.next_tx_id, .BUY,
                req.security_name, price, req.quantity⟩ :: s1.orders,
            next_tx_id := s1.next_tx_id + 1,
            next_order_id := s1.next_order_id + 1 })) := by
  constructor
  · intro hlt
    simp only [buy, hp]
    rw [if_pos hlt]
  · intro hle
    simp only [buy, hp]
    rw [if_neg (not_lt.mpr hle)]
    rfl

/-- Witness for C2: user `a` with $100.00 buys 1 share at $50.00 —
success records the DEBIT and the linked BUY order; buying 3 shares fails
with `InsufficientFunds{available=10000, required=15000}` and writes
nothing. -/
theorem C2_buy_behaviour_witness :
    buy cfgA (fun _ => some 5000) 0 stateA ⟨"a", "ACME", 3⟩ =
      (.error (.notEnoughMoney 10000 15000), stateA) ∧
    buy cfgA (fun _ => some 5000) 0 stateA ⟨"a", "ACME", 1⟩ =
      (.ok ⟨0, "a", 1, .BUY, "ACME", 5000, 1⟩,
       { stateA with
          transactions := ⟨1, "a", .DEBIT, 5000, "Buy for 1 of $ACME"⟩ ::
            stateA.transactions,
          orders := [⟨0, "a", 1, .BUY, "ACME", 5000, 1⟩],
          next_tx_id := 2,
          next_order_id := 1 }) :=
  ⟨(C2_buy_behaviour cfgA (fun _ => some 5000) 0 stateA ⟨"a", "ACME", 3⟩ 5000
      rfl (by decide)).1 (by decide),
   (C2_buy_behaviour cfgA (fun _ => some 5000) 0 stateA ⟨"a", "ACME", 1⟩ 5000
      rfl (by decide)).2 (by decide)⟩

/-! ### Claim C3 -/

/-- Claim C3 fails on the code: a seller with no orders at all in the
security has net held quantity 0, which is less than any requested
quantity 1, yet `sell` does not fail with
`InsufficientQuantity{available=0}` — the NULL quantity makes the
comparison raise a `TypeError` instead. -/
theorem C3_sell_no_orders_type_error :
    (sell cfgA (fun _ => some 5000) 0 fresh_state ⟨"alice", "ACME", 1⟩).1 =
      .error .typeError ∧
    ∀ k : Int,
      (sell cfgA (fun _ => some 5000) 0 fresh_state ⟨"alice", "ACME", 1⟩).1 ≠
        .error (.notEnoughQuantity k) := by
  refine ⟨by decide, ?_⟩
  intro k h
  rw [show (sell cfgA (fun _ => some 5000) 0 fresh_state
      ⟨"alice", "ACME", 1⟩).1 = .error .typeError from by decide] at h
  simp at h

/-! ### Claim C4 -/

/-- Counterexample to C4 as stated: the code allows a self-gift.  With
A = B = `a` (balance $100.00) and X = $50.00 > 0 ≤ balance, the gift
succeeds but `a`'s balance afterwards is unchanged at 10000 cents, not
`before − X = 5000` as the claim requires of the sender. -/
theorem C4_gift_self_counterexample :
    (send_gift cfgA 0 stateA "a" "a" 5000).1 = .ok () ∧
    get_user_balance (send_gift cfgA 0 stateA "a" "a" 5000).2 "a" = 10000 ∧
    (10000 : Int) ≠ 10000 - 5000 := by
  decide

/-- Claim C4, amended to distinct users: for existing users A ≠ B and
X > 0, if A's balance covers X the gift succeeds, A's balance drops by
exactly X, B's rises by exactly X, and A stays non-negative; if the
balance is short the gift fails with `InsufficientFunds` and the state is
unchanged. -/
theorem C4_gift_conservation (cfg : Config) (now : Int) (s : DBState)
    (A B : String) (X : Int) (hAB : A ≠ B)
    (hA : A ∈ s.users) (hB : B ∈ s.users) (hX : 0 < X) :
    (X ≤ get_user_balance s A →
      (send_gift cfg now s A B X).1 = .ok () ∧
      get_user_balance (send_gift cfg now s A B X).2 A =
        get_user_balance s A - X ∧
      get_user_balance (send_gift cfg now s A B X).2 B =
        get_user_balance s B + X ∧
      0 ≤ get_user_balance (send_gift cfg now s A B X).2 A) ∧
    (get_user_balance s A < X →
      send_gift cfg now s A B X =
        (.error (.notEnoughMoney (get_user_balance s A) X), s)) := by
  have e1 : svc_create_user cfg now s A = s := svc_create_user_of_mem cfg now s A hA
  have e2 : svc_create_user cfg now s B = s := svc_create_user_of_mem cfg now s B hB
  have hBA : ¬(B = A) := fun hh => hAB hh.symm
  constructor
  · intro hle
    have hA2 : get_user_balance
        (send_gift cfg now s A B X).2 A = get_user_balance s A - X := by
      simp only [send_gift, e1, e2]
      rw [if_neg (not_lt.mpr hle)]
      rw [get_user_balance_create_transaction, get_user_balance_create_transaction]
      simp [txn_signed_cents, hBA]
      ring
    have hB2 : get_user_balance
        (send_gift cfg now s A B X).2 B = get_user_balance s B + X := by
      simp only [send_gift, e1, e2]
      rw [if_neg (not_lt.mpr hle)]
      rw [get_user_balance_create_transaction, get_user_balance_create_transaction]
      simp [txn_signed_cents, hAB]
      ring
    refine ⟨?_, hA2, hB2, ?_⟩
    · simp only [send_gift, e1, e2]
      rw [if_neg (not_lt.mpr hle)]
    · rw [hA2]
      omega
  · intro hlt
    simp only [send_gift, e1, e2]
    rw [if_pos hlt]

/-- Witness for C4 at a concrete pair of users: `a` ($100.00) gifts
$50.00 to `b` ($0.00), leaving $50.00 each; gifting $200.00 fails with
`InsufficientFunds{available=10000, required=20000}` and changes
nothing. -/
theorem C4_gift_conservation_witness :
    ((send_gift cfgA 0 stateAB "a" "b" 5000).1 = .ok () ∧
      get_user_balance (send_gift cfgA 0 stateAB "a" "b" 5000).2 "a" = 5000 ∧
      get_user_balance (send_gift cfgA 0 stateAB "a" "b" 5000).2 "b" = 5000) ∧
    send_gift cfgA 0 stateAB "a" "b" 20000 =
      (.error (.notEnoughMoney 10000 20000), stateAB) := by
  have h := (C4_gift_conservation cfgA 0 stateAB "a" "b" 5000 (by decide)
    (by decide) (by decide) (by decide)).1 (by decide)
  have h2 := (C4_gift_conservation cfgA 0 stateAB "a" "b" 20000 (by decide)
    (by decide) (by decide) (by decide)).2 (by decide)
  refine ⟨⟨h.1, ?_, ?_⟩, h2⟩
  · rw [h.2.1]; decide
  · rw [h.2.2.1]; decide

/-! ### Claim C5 -/

/-- Claim C5: onboarding is idempotent.  For a user with no prior rows,
calling the service-level `create_user` twice leaves exactly one
allowance grant and exactly one starting-balance CREDIT for that user,
and the second call changes no state. -/
theorem C5_onboarding_idempotent (cfg : Config) (now1 now2 : Int)
    (s : DBState) (u : String) (hu : u ∉ s.users)
    (ha : s.allowances.filter (fun a => a.user_id = u) = [])
    (ht : s.transactions.filter (fun t => t.user_id = u) = []) :
    svc_create_user cfg now2 (svc_create_user cfg now1 s u) u =
      svc_create_user cfg now1 s u ∧
    (svc_create_user cfg now1 s u).allowances.filter
      (fun a => a.user_id = u) = [⟨u, now1⟩] ∧
    (svc_create_user cfg now1 s u).transactions.filter
      (fun t => t.user_id = u) =
      [⟨s.next_tx_id, u, .CREDIT, cfg.starting_balance_cents,
        "Initial credit"⟩] := by
  have h1 : svc_create_user cfg now1 s u =
      { s with
          users := u :: s.users,
          allowances := ⟨u, now1⟩ :: s.allowances,
          transactions := ⟨s.next_tx_id, u, .CREDIT,
            cfg.starting_balance_cents, "Initial credit"⟩ :: s.transactions,
          next_tx_id := s.next_tx_id + 1 } := by
    simp [svc_create_user, create_user, hu, create_allowance,
      create_transaction]
  refine ⟨?_, ?_, ?_⟩
  · rw [h1]
    exact svc_create_user_of_mem cfg now2 _ u (List.mem_cons_self u s.users)
  · rw [h1]
    simp [List.filter_cons, ha]
  · rw [h1]
    simp [List.filter_cons, ht]

/-- Witness for C5 on the empty database: onboarding `new` twice yields
one allowance grant, one starting-balance CREDIT, and an unchanged state
on the second call. -/
theorem C5_onboarding_idempotent_witness :
    svc_create_user cfgA 1 (svc_create_user cfgA 0 fresh_state "new") "new" =
      svc_create_user cfgA 0 fresh_state "new" ∧
    (svc_create_user cfgA 0 fresh_state "new").allowances.filter
      (fun a => a.user_id = "new") = [⟨"new", 0⟩] ∧
    (svc_create_user cfgA 0 fresh_state "new").transactions.filter
      (fun t => t.user_id = "new") =
      [⟨0, "new", .CREDIT, 100000, "Initial credit"⟩] :=
  C5_onboarding_idempotent cfgA 0 1 fresh_state "new" (by decide) (by decide)
    (by decide)

/-! ### Claim C10 -/

/-- Claim C10: for a user with no orders at all in a security, the
net-quantity query returns NULL (`none`), not the integer 0 (the
unfiltered SQL `SUM` over zero rows is NULL), so `sell`'s
held-versus-requested comparison is not performed on an integer — the
comparison of `None` with an `int` raises `TypeError`. -/
theorem C10_no_orders_quantity_is_null (cfg : Config) (oracle : Oracle)
    (now : Int) (s : DBState) (u name : String) (q : Int)
    (h : s.orders.filter
      (fun o => o.user_id = u ∧ o.security_name = name) = []) :
    get_user_security_quantity s u name = none ∧
    get_user_security_quantity s u name ≠ some 0 ∧
    (sell cfg oracle now s ⟨u, name, q⟩).1 = .error .typeError := by
  have horders : (svc_create_user cfg now s u).orders = s.orders :=
    svc_create_user_orders cfg now s u
  have hq0 : get_user_security_quantity s u name = none := by
    simp only [get_user_security_quantity, h]
    rfl
  have hq1 : get_user_security_quantity
      (svc_create_user cfg now s u) u name = none := by
    simp only [get_user_security_quantity, horders, h]
    rfl
  refine ⟨hq0, by rw [hq0]; simp, by simp [sell, hq1]⟩

/-- Witness for C10 on the empty database: the quantity query for a
first-time seller is NULL and `sell` raises `TypeError`. -/
theorem C10_no_orders_quantity_is_null_witness :
    get_user_security_quantity fresh_state "alice" "ACME" = none ∧
    get_user_security_quantity fresh_state "alice" "ACME" ≠ some 0 ∧
    (sell cfgA (fun _ => some 5000) 0 fresh_state
      ⟨"alice", "ACME", 1⟩).1 = .error .typeError :=
  C10_no_orders_quantity_is_null cfgA (fun _ => some 5000) 0 fresh_state
    "alice" "ACME" 1 (by decide)

/-! ### Claim C8 -/

theorem mem_eligible_iff (s : DBState) (now : Int) (u : String) :
    u ∈ get_eligible_users_for_allowance s now ↔
      u ∈ s.users ∧
        ∀ a ∈ s.allowances, ¬(a.user_id = u ∧ now - 7 < a.created_at) := by
  simp [get_eligible_users_for_allowance, List.mem_filter, allowance_recent,
    List.any_eq_true, not_and]

theorem grant_allowance_users (cfg : Config) (now : Int) (s : DBState)
    (u : String) : (grant_allowance cfg now s u).users = s.users :=
  rfl

theorem foldl_grant_users (cfg : Config) (now : Int) :
    ∀ (l : List String) (s : DBState),
      (l.foldl (grant_allowance cfg now) s).users = s.users := by
  intro l
  induction l with
  | nil => intro s; rfl
  | cons hd tl ih =>
      intro s
      rw [List.foldl_cons, ih, grant_allowance_users]

theorem foldl_grant_allowances_mono (cfg : Config) (now : Int)
    (a : Allowance) :
    ∀ (l : List String) (s : DBState), a ∈ s.allowances →
      a ∈ (l.foldl (grant_allowance cfg now) s).allowances := by
  intro l
  induction l with
  | nil => intro s h; exact h
  | cons hd tl ih =>
      intro s h
      rw [List.foldl_cons]
      exact ih _ (List.mem_cons_of_mem _ h)

theorem foldl_grant_allowances_granted (cfg : Config) (now : Int)
    (u : String) :
    ∀ (l : List String) (s : DBState), u ∈ l →
      (⟨u, now⟩ : Allowance) ∈
        (l.foldl (grant_allowance cfg now) s).allowances := by
  intro l
  induction l with
  | nil => intro s h; exact absurd h (List.not_mem_nil u)
  | cons hd tl ih =>
      intro s h
      rw [List.foldl_cons]
      rcases List.mem_cons.mp h with h | h
      · subst h
        exact foldl_grant_allowances_mono cfg now _ tl _
          (List.mem_cons_self _ _)
      · exact ih _ h

/-- Counterexample to C8 as stated: user `u` got a grant at time 0; the
disbursement runs at times 5 and 10 — five days apart, within one 7-day
window — yet the second run finds `u` eligible (the time-0 grant has aged
past 7 days by time 10) and writes a grant, so the second run is not
always a no-op. -/
theorem C8_second_run_writes_counterexample :
    (0 : Int) ≤ 5 ∧ (10 : Int) - 5 < 7 ∧
    get_eligible_users_for_allowance (update_allowances cfgA 5 stateU) 10 =
      ["u"] ∧
    (update_allowances cfgA 10
        (update_allowances cfgA 5 stateU)).allowances.length =
      (update_allowances cfgA 5 stateU).allowances.length + 1 := by
  decide

/-- Claim C8, amended: a user is eligible exactly when no grant exists in
the trailing 7 days; across two runs within the same 7-day window no user
granted by the first run is granted again by the second; and when the two
runs happen at the same instant, the second finds no eligible users and
writes nothing. -/
theorem C8_allowance_idempotence (cfg : Config) (s : DBState)
    (now now2 : Int) (h12 : now ≤ now2) (h7 : now2 < now + 7) :
    (∀ u, u ∈ get_eligible_users_for_allowance s now ↔
      u ∈ s.users ∧
        ∀ a ∈ s.allowances, ¬(a.user_id = u ∧ now - 7 < a.created_at)) ∧
    (∀ u ∈ get_eligible_users_for_allowance s now,
      u ∉ get_eligible_users_for_allowance (update_allowances cfg now s)
        now2) ∧
    (now2 = now →
      update_allowances cfg now2 (update_allowances cfg now s) =
        update_allowances cfg now s) := by
  refine ⟨fun u => mem_eligible_iff s now u, ?_, ?_⟩
  · intro u hu hmem
    have hgrant : (⟨u, now⟩ : Allowance) ∈
        (update_allowances cfg now s).allowances :=
      foldl_grant_allowances_granted cfg now u _ s hu
    have := ((mem_eligible_iff _ now2 u).mp hmem).2 ⟨u, now⟩ hgrant
    exact this ⟨rfl, show now2 - 7 < now by omega⟩
  · intro h
    subst h
    have hnil : get_eligible_users_for_allowance
        (update_allowances cfg now2 s) now2 = [] := by
      apply List.filter_eq_nil_iff.mpr
      intro u hu
      have hus : u ∈ s.users := by
        have := foldl_grant_users cfg now2
          (get_eligible_users_for_allowance s now2) s
        rw [show (update_allowances cfg now2 s).users =
          (List.foldl (grant_allowance cfg now2) s
            (get_eligible_users_for_allowance s now2)).users from rfl,
          this] at hu
        exact hu
      have hany : ∃ a ∈ (update_allowances cfg now2 s).allowances,
          allowance_recent now2 u a = true := by
        by_cases helig : u ∈ get_eligible_users_for_allowance s now2
        · refine ⟨⟨u, now2⟩,
            foldl_grant_allowances_granted cfg now2 u _ s helig, ?_⟩
          simp [allowance_recent]
        · rw [mem_eligible_iff] at helig
          push_neg at helig
          obtain ⟨a, ha, hau, hat⟩ := helig hus
          refine ⟨a, foldl_grant_allowances_mono cfg now2 a _ s ha, ?_⟩
          simp [allowance_recent, hau]
          omega
      intro hcontra
      have h1 : (update_allowances cfg now2 s).allowances.any
          (allowance_recent now2 u) = true := List.any_eq_true.mpr hany
      simp [h1] at hcontra
    rw [show update_allowances cfg now2 (update_allowances cfg now2 s) =
      (get_eligible_users_for_allowance (update_allowances cfg now2 s)
        now2).foldl (grant_allowance cfg now2)
        (update_allowances cfg now2 s) from rfl, hnil]
    rfl

/-- Witness for C8: two disbursement runs at the same instant — the
second changes nothing on a database with one already-granted user. -/
theorem C8_allowance_idempotence_witness :
    update_allowances cfgA 0 (update_allowances cfgA 0 stateU) =
      update_allowances cfgA 0 stateU :=
  (C8_allowance_idempotence cfgA stateU 0 0 le_rfl (by omega)).2.2 rfl

/-! ### Claim C6 -/

theorem filter_map_names_sublist (g : String → OwnedSecurity)
    (p : OwnedSecurity → Bool) (hg : ∀ n, (g n).name = n) :
    ∀ l : List String,
      List.Sublist (((l.map g).filter p).map (fun sec => sec.name)) l := by
  intro l
  induction l with
  | nil => simp
  | cons hd tl ih =>
      simp only [List.map_cons, List.filter_cons]
      by_cases hp : p (g hd) = true
      · rw [if_pos hp]
        simp only [List.map_cons, hg]
        exact List.Sublist.cons₂ hd ih
      · rw [if_neg hp]
        exact List.Sublist.cons hd ih

/-- The names of a user's owned securities are pairwise distinct (the SQL
aggregation groups by name). -/
theorem owned_names_nodup (s : DBState) (u : String) :
    ((get_owned_securities s u).map (fun sec => sec.name)).Nodup := by
  have h := filter_map_names_sublist
    (owned_row (s.orders.filter (fun o => o.user_id = u)))
    (fun sec => decide (0 < sec.quantity))
    (fun n => rfl)
    (((s.orders.filter (fun o => o.user_id = u)).map
      (fun o => o.security_name)).dedup)
  exact List.Sublist.nodup h (List.nodup_dedup _)

/-- When every requested name misses the cache and has an oracle price,
`get_security_prices` performs one HTTP fetch per name. -/
theorem get_security_prices_fetch_count (oracle : Oracle) :
    ∀ (names : List String) (cache : Cache), names.Nodup →
      (∀ n ∈ names, cache.lookup n = none) →
      (∀ n ∈ names, (oracle n).isSome) →
      (get_security_prices oracle cache names).2.1 = names.length := by
  intro names
  induction names with
  | nil => intro cache _ _ _; rfl
  | cons hd tl ih =>
      intro cache hnodup hlk hor
      have hlkhd : cache.lookup hd = none := hlk hd (List.mem_cons_self _ _)
      obtain ⟨p, hp⟩ := Option.isSome_iff_exists.mp
        (hor hd (List.mem_cons_self _ _))
      have hfetch : fetch_price_through_cache oracle cache hd =
          (some p, 1, (hd, p) :: cache) := by
        simp [fetch_price_through_cache, hlkhd, hp]
      have hlk2 : ∀ n ∈ tl, ((hd, p) :: cache).lookup n = none := by
        intro n hn
        have hne : (n == hd) = false := by
          simp only [beq_eq_false_iff_ne, ne_eq]
          intro hcontra
          exact (List.nodup_cons.mp hnodup).1 (hcontra ▸ hn)
        simp [List.lookup, hne, hlk n (List.mem_cons_of_mem _ hn)]
      have hrec := ih ((hd, p) :: cache) (List.nodup_cons.mp hnodup).2 hlk2
        (fun n hn => hor n (List.mem_cons_of_mem _ hn))
      rcases hres : get_security_prices oracle ((hd, p) :: cache) tl with
        ⟨r, k2, c2⟩
      rw [hres] at hrec
      simp only at hrec
      cases r with
      | none =>
          simp [get_security_prices, hfetch, hres, hrec, List.length_cons]
          omega
      | some m =>
          simp [get_security_prices, hfetch, hres, hrec, List.length_cons]
          omega

/-- If some requested name is neither cached nor priced by the oracle,
`get_security_prices` returns `None` (no partial map). -/
theorem get_security_prices_fail (oracle : Oracle) :
    ∀ (names : List String) (cache : Cache), names.Nodup →
      (∃ n ∈ names, cache.lookup n = none ∧ oracle n = none) →
      (get_security_prices oracle cache names).1 = none := by
  intro names
  induction names with
  | nil =>
      intro cache _ hex
      obtain ⟨n, hn, _⟩ := hex
      exact absurd hn (List.not_mem_nil n)
  | cons hd tl ih =>
      intro cache hnodup hex
      obtain ⟨n, hn, hlkn, horn⟩ := hex
      rcases hlkhd : cache.lookup hd with _ | p
      · rcases horhd : oracle hd with _ | q
        · -- the head itself fails to resolve
          simp [get_security_prices, fetch_price_through_cache, hlkhd, horhd]
        · -- head fetched and added to the cache
          have hnhd : n ≠ hd := by
            intro hcontra
            rw [hcontra, horhd] at horn
            exact Option.noConfusion horn
          have hntl : n ∈ tl := by
            rcases List.mem_cons.mp hn with h | h
            · exact absurd h hnhd
            · exact h
          have hlkn2 : ((hd, q) :: cache).lookup n = none := by
            have hne : (n == hd) = false := by
              simp [beq_eq_false_iff_ne, hnhd]
            simp [List.lookup, hne, hlkn]
          have hrec := ih ((hd, q) :: cache) (List.nodup_cons.mp hnodup).2
            ⟨n, hntl, hlkn2, horn⟩
          rcases hres : get_security_prices oracle ((hd, q) :: cache) tl with
            ⟨r, k2, c2⟩
          rw [hres] at hrec
          simp only at hrec
          subst hrec
          simp [get_security_prices, fetch_price_through_cache, hlkhd, horhd,
            hres]
      · -- head was a cache hit; the cache is unchanged
        have hnhd : n ≠ hd := by
          intro hcontra
          rw [hcontra, hlkhd] at hlkn
          exact Option.noConfusion hlkn
        have hntl : n ∈ tl := by
          rcases List.mem_cons.mp hn with h | h
          · exact absurd h hnhd
          · exact h
        have hrec := ih cache (List.nodup_cons.mp hnodup).2 ⟨n, hntl, hlkn, horn⟩
        rcases hres : get_security_prices oracle cache tl with ⟨r, k2, c2⟩
        rw [hres] at hrec
        simp only at hrec
        subst hrec
        simp [get_security_prices, fetch_price_through_cache, hlkhd, hres]

/-- Counterexample to C6 as stated: user `a` holds two securities; with a
cold cache the portfolio valuation performs two HTTP fetches against the
price source — one per name — not a single batched round trip. -/
theorem C6_not_single_round_trip :
    ((get_owned_securities stateTwoSec "a").map (fun sec => sec.name)) =
      ["AAA", "BBB"] ∧
    (get_portfolio_core oracleAB [] stateTwoSec "a").2.1 = 2 ∧
    (2 : Nat) ≠ 1 := by
  decide

/-- Claim C6, amended: the portfolio valuation requests all distinct held
names in one `get_security_prices` service call, whose implementation
performs one price fetch per uncached name (N fetches for N names on a
cold cache, not one round trip); if any requested price is missing the
whole call fails with `PriceUnavailable`, and a successful call returns
one entry per owned security (never a partial list). -/
theorem C6_portfolio_batch_all_or_nothing (oracle : Oracle) (cache : Cache)
    (s : DBState) (u : String) :
    ((get_owned_securities s u).map (fun sec => sec.name)).Nodup ∧
    ((∀ n ∈ (get_owned_securities s u).map (fun sec => sec.name),
        cache.lookup n = none ∧ (oracle n).isSome) →
      (get_portfolio_core oracle cache s u).2.1 =
        ((get_owned_securities s u).map (fun sec => sec.name)).length) ∧
    ((∃ n ∈ (get_owned_securities s u).map (fun sec => sec.name),
        cache.lookup n = none ∧ oracle n = none) →
      (get_portfolio_core oracle cache s u).1 = .error .priceUnavailable) ∧
    (∀ entries, (get_portfolio_core oracle cache s u).1 = .ok entries →
      entries.length = (get_owned_securities s u).length) := by
  refine ⟨owned_names_nodup s u, ?_, ?_, ?_⟩
  · intro hall
    have hcount := get_security_prices_fetch_count oracle
      ((get_owned_securities s u).map (fun sec => sec.name)) cache
      (owned_names_nodup s u) (fun n hn => (hall n hn).1)
      (fun n hn => (hall n hn).2)
    rcases hres : get_security_prices oracle cache
        ((get_owned_securities s u).map (fun sec => sec.name)) with ⟨r, k, c⟩
    rw [hres] at hcount
    cases r with
    | none => simpa [get_portfolio_core, hres] using hcount
    | some m => simpa [get_portfolio_core, hres] using hcount
  · intro hex
    have hfail := get_security_prices_fail oracle
      ((get_owned_securities s u).map (fun sec => sec.name)) cache
      (owned_names_nodup s u) hex
    rcases hres : get_security_prices oracle cache
        ((get_owned_securities s u).map (fun sec => sec.name)) with ⟨r, k, c⟩
    rw [hres] at hfail
    simp only at hfail
    subst hfail
    simp [get_portfolio_core, hres]
  · intro entries hok
    rcases hres : get_security_prices oracle cache
        ((get_owned_securities s u).map (fun sec => sec.name)) with ⟨r, k, c⟩
    cases r with
    | none => simp [get_portfolio_core, hres] at hok
    | some m =>
        simp only [get_portfolio_core, hres] at hok
        cases hok
        simp [List.length_map]

/-- Witness for C6 (amended): on the concrete two-security state with a
cold cache, the fetch count equals the number of held names (two), and a
successful valuation has one entry per holding. -/
theorem C6_portfolio_batch_all_or_nothing_witness :
    (get_portfolio_core oracleAB [] stateTwoSec "a").2.1 =
      ((get_owned_securities stateTwoSec "a").map
        (fun sec => sec.name)).length :=
  (C6_portfolio_batch_all_or_nothing oracleAB [] stateTwoSec "a").2.1
    (by decide)

/-! ### Claim C9 -/

theorem mem_insertSnap {x y : PortfolioSnapshot} :
    ∀ {l : List PortfolioSnapshot}, y ∈ insertSnap x l ↔ y = x ∨ y ∈ l := by
  intro l
  induction l with
  | nil => simp [insertSnap]
  | cons hd tl ih =>
      unfold insertSnap
      by_cases hle : x.created_at ≤ hd.created_at
      · rw [if_pos hle]
        simp [List.mem_cons]
      · rw [if_neg hle]
        simp only [List.mem_cons, ih]
        tauto

theorem pairwise_insertSnap (x : PortfolioSnapshot) :
    ∀ l : List PortfolioSnapshot,
      l.Pairwise (fun a b => a.created_at ≤ b.created_at) →
      (insertSnap x l).Pairwise (fun a b => a.created_at ≤ b.created_at) := by
  intro l
  induction l with
  | nil => intro _; simp [insertSnap]
  | cons hd tl ih =>
      intro h
      rcases List.pairwise_cons.mp h with ⟨hhd, htl⟩
      unfold insertSnap
      by_cases hle : x.created_at ≤ hd.created_at
      · rw [if_pos hle]
        refine List.pairwise_cons.mpr ⟨?_, h⟩
        intro z hz
        rcases List.mem_cons.mp hz with hz | hz
        · exact hz ▸ hle
        · exact le_trans hle (hhd z hz)
      · rw [if_neg hle]
        refine List.pairwise_cons.mpr ⟨?_, ih htl⟩
        intro z hz
        rcases mem_insertSnap.mp hz with hz | hz
        · exact hz ▸ le_of_not_le hle
        · exact hhd z hz

/-- The stored snapshots come back sorted ascending by creation time. -/
theorem pairwise_sortSnaps (l : List PortfolioSnapshot) :
    (sortSnaps l).Pairwise (fun a b => a.created_at ≤ b.created_at) := by
  induction l with
  | nil => simp [sortSnaps]
  | cons hd tl ih => exact pairwise_insertSnap hd (sortSnaps tl) ih

/-- Claim C9: `get_portfolio_snapshots` returns the stored snapshots for
the user in ascending creation-time order, followed by exactly one
synthetic trailing entry holding the freshly computed current portfolio
timestamped now; the synthetic entry is not persisted (the snapshot store
is unchanged); and an empty stored history plus the single current entry
is a valid result. -/
theorem C9_portfolio_history (cfg : Config) (oracle : Oracle) (now : Int)
    (cache : Cache) (s : DBState) (u : String)
    (entries : List PortfolioEntry)
    (h : (get_portfolio cfg oracle now cache s u).1 = .ok entries) :
    (get_portfolio_snapshots cfg oracle now cache s u).1 =
      .ok (sortSnaps ((s.snapshots.filter (fun r => r.user_id == u)).map
        (fun r => ⟨r.created_at, r.data⟩)) ++ [⟨now, entries⟩]) ∧
    (sortSnaps ((s.snapshots.filter (fun r => r.user_id == u)).map
      (fun r => ⟨r.created_at, r.data⟩))).Pairwise
        (fun a b => a.created_at ≤ b.created_at) ∧
    (get_portfolio_snapshots cfg oracle now cache s u).2.snapshots =
      s.snapshots ∧
    (s.snapshots.filter (fun r => r.user_id == u) = [] →
      (get_portfolio_snapshots cfg oracle now cache s u).1 =
        .ok [⟨now, entries⟩]) := by
  have hs1 : (svc_create_user cfg now s u).snapshots = s.snapshots :=
    svc_create_user_snapshots cfg now s u
  have hmain : (get_portfolio_snapshots cfg oracle now cache s u).1 =
      .ok (sortSnaps ((s.snapshots.filter (fun r => r.user_id == u)).map
        (fun r => ⟨r.created_at, r.data⟩)) ++ [⟨now, entries⟩]) := by
    simp only [get_portfolio_snapshots, h]
    simp only [get_user_portfolio_snapshots,
      show (get_portfolio cfg oracle now cache s u).2.2.2 =
        svc_create_user cfg now s u from rfl, hs1]
  refine ⟨hmain, pairwise_sortSnaps _, ?_, ?_⟩
  · simp only [get_portfolio_snapshots, h,
      show (get_portfolio cfg oracle now cache s u).2.2.2 =
        svc_create_user cfg now s u from rfl, hs1]
  · intro hempty
    rw [hmain, hempty]
    rfl

/-- Witness for C9: user `a` with one stored snapshot (time 3) and no
holdings; the history is the stored snapshot followed by the current
(empty) portfolio stamped at time 5, and the store is unchanged. -/
theorem C9_portfolio_history_witness :
    (get_portfolio_snapshots cfgA oracleAB 5 [] stateSnap "a").1 =
      .ok [⟨3, []⟩, ⟨5, []⟩] ∧
    (get_portfolio_snapshots cfgA oracleAB 5 [] stateSnap "a").2.snapshots =
      stateSnap.snapshots := by
  have h := C9_portfolio_history cfgA oracleAB 5 [] stateSnap "a" []
    (by decide)
  refine ⟨?_, h.2.2.1⟩
  rw [h.1]
  decide

end YoloDiscord
